import Mathlib

/-!
# Verification of the metrika data-aggregation and reporting pipeline

Shallow embedding of the repository's reporting core:

* `src/core/models.py`            — data model (`Location`, `ReportData`, …)
* `src/core/data_processor.py`    — `DataProcessor.process_api_response`,
  `DataProcessor.aggregate_traffic_data`, `DataProcessor.calculate_totals`
* `src/core/excel_traffic_processor.py` — `ExcelTrafficProcessor.extract_city_name`,
  `load_traffic_data`, `update_excel`
* `src/core/excel_exporter.py`    — `ExcelExporter._create_summary_sheet`,
  `_create_city_sheet`, `export_report`
* `src/core/exceptions.py`        — error taxonomy.

Python conventions are modelled as follows: dictionaries become association
lists preserving insertion order (Python ≥ 3.7 semantics: updating an existing
key keeps its position, a new key is appended at the end); raised exceptions
become `Except PyErr`; metric numbers (visit/user/pageview counts) become
`Nat`; float results of `/` become `ℚ`.
-/

namespace Metrika

/-- Error values a pipeline computation can raise.  The first four model the
Python builtin exceptions actually raised by the code; the last four model the
exception classes declared in `src/core/exceptions.py` (`MetrikaApiError`,
`ConfigError`, `DataProcessingError`, `ExcelExportError`).  `exceptions.py`
declares no other class; in particular no `ReportStructureError` exists. -/
inductive PyErr where
  | keyError
  | indexError
  | valueError
  | zeroDivisionError
  | metrikaApiError
  | configError
  | dataProcessingError
  | excelExportError
deriving DecidableEq

instance {ε α : Type} [DecidableEq ε] [DecidableEq α] : DecidableEq (Except ε α) := fun a b =>
  match a, b with
  | .ok x, .ok y => decidable_of_iff (x = y) (by simp)
  | .error e, .error f => decidable_of_iff (e = f) (by simp)
  | .ok _, .error _ => isFalse (by simp)
  | .error _, .ok _ => isFalse (by simp)

/-- `src/core/models.py` — `Location` dataclass. -/
structure Location where
  name : String
  region : String
  selected : Bool := false
deriving DecidableEq

/-- A calendar date, the result of `datetime.strptime(s, "%Y-%m-%d").date()`. -/
structure Date where
  year : Nat
  month : Nat
  day : Nat
deriving DecidableEq

/-- One entry of a raw row's `dimensions` list: a JSON object of which the
code reads the `name` and `id` fields. -/
structure Dim where
  name : String
  id : String
deriving DecidableEq

/-- One entry of a raw response's `data` list: a JSON object with a
`dimensions` list and a `metrics` list. -/
structure RawRow where
  dimensions : List Dim
  metrics : List Nat
deriving DecidableEq

/-- A raw API response for one location: a JSON object whose `data` key the
code reads. -/
structure RawResponse where
  data : List RawRow
deriving DecidableEq

/-- `src/core/models.py` — `ReportData` dataclass. -/
structure ReportData where
  location : Location
  date : Date
  visits : Nat
  users : Nat
  pageviews : Nat
  traffic_source : Option String := none
  bounce_rate : Option ℚ := none
  page_depth : Option ℚ := none
  avg_visit_duration : Option ℚ := none
deriving DecidableEq

/-! ## Python dictionary operations on insertion-ordered association lists -/

/-- Python `d[k]`-style lookup on an insertion-ordered association list. -/
def alookup (k : String) : List (String × α) → Option α
  | [] => none
  | (k', v) :: rest => if k' = k then some v else alookup k rest

/-- Python `d[k] = v`: update in place if `k` is present, else append. -/
def dictSet (d : List (String × α)) (k : String) (v : α) : List (String × α) :=
  match d with
  | [] => [(k, v)]
  | (k', v') :: rest => if k' = k then (k, v) :: rest else (k', v') :: dictSet rest k v

/-- Python `d[k]` raising `KeyError` when the key is absent. -/
def pyGetItem (d : List (String × α)) (k : String) : Except PyErr α :=
  match alookup k d with
  | some v => .ok v
  | none => .error .keyError

@[simp] theorem alookup_nil (k : String) : alookup k ([] : List (String × α)) = none := rfl

theorem alookup_cons (k k' : String) (v : α) (rest : List (String × α)) :
    alookup k ((k', v) :: rest) = if k' = k then some v else alookup k rest := rfl

theorem alookup_dictSet (d : List (String × α)) (k k' : String) (v : α) :
    alookup k' (dictSet d k v) = if k = k' then some v else alookup k' d := by
  induction d with
  | nil => by_cases h : k = k' <;> simp [dictSet, alookup, h]
  | cons kv rest ih =>
    obtain ⟨k₀, v₀⟩ := kv
    by_cases h₀ : k₀ = k
    · subst h₀
      by_cases h : k₀ = k' <;> simp [dictSet, alookup, h]
    · by_cases h : k = k'
      · subst h
        have hne : ¬ k₀ = k := h₀
        simp [dictSet, h₀, alookup, ih, hne]
      · by_cases h₁ : k₀ = k'
        · subst h₁
          simp [dictSet, h₀, alookup, h]
        · simp [dictSet, h₀, alookup, h₁, ih, h]

theorem alookup_dictSet_isSome (d : List (String × α)) (k k' : String) (v : α)
    (hk : (alookup k d).isSome) :
    (alookup k' (dictSet d k v)).isSome = (alookup k' d).isSome := by
  rw [alookup_dictSet]
  by_cases h : k = k'
  · subst h; simp [hk]
  · simp [h]

theorem alookup_isSome_dictSet (d : List (String × α)) (k k' : String) (v : α)
    (hk : (alookup k' d).isSome) : (alookup k' (dictSet d k v)).isSome := by
  rw [alookup_dictSet]
  by_cases h : k = k' <;> simp [h, hk]

/-! ## Monadic iteration of Python `for` loops

A `for` loop whose body may raise is modelled by `foldE`/`mapE`: the first
raised error aborts the whole loop. -/

/-- Left fold whose step may raise; the first error aborts. -/
def foldE (f : σ → α → Except PyErr σ) (init : σ) : List α → Except PyErr σ
  | [] => .ok init
  | x :: xs =>
    match f init x with
    | .error e => .error e
    | .ok s => foldE f s xs

/-- Element-wise map whose body may raise; the first error aborts. -/
def mapE (f : α → Except PyErr β) : List α → Except PyErr (List β)
  | [] => .ok []
  | x :: xs =>
    match f x with
    | .error e => .error e
    | .ok y =>
      match mapE f xs with
      | .error e => .error e
      | .ok ys => .ok (y :: ys)

theorem foldE_pres (f : σ → α → Except PyErr σ) (Q : σ → Prop)
    (hf : ∀ s a s', f s a = .ok s' → Q s → Q s') :
    ∀ (l : List α) (s s' : σ), foldE f s l = .ok s' → Q s → Q s' := by
  intro l
  induction l with
  | nil => intro s s' h hq; simp [foldE] at h; exact h ▸ hq
  | cons x xs ih =>
    intro s s' h hq
    simp only [foldE] at h
    cases hx : f s x with
    | error e => rw [hx] at h; exact absurd h (by simp)
    | ok s₁ => rw [hx] at h; exact ih s₁ s' h (hf s x s₁ hx hq)

theorem mapE_ok_length (f : α → Except PyErr β) :
    ∀ (l : List α) (ys : List β), mapE f l = .ok ys → ys.length = l.length := by
  intro l
  induction l with
  | nil => intro ys h; simp [mapE] at h; simp [← h]
  | cons x xs ih =>
    intro ys h
    simp only [mapE] at h
    cases hx : f x with
    | error e => rw [hx] at h; exact absurd h (by simp)
    | ok y =>
      rw [hx] at h
      cases hxs : mapE f xs with
      | error e => rw [hxs] at h; exact absurd h (by simp)
      | ok ys' =>
        rw [hxs] at h
        cases h
        simp [ih ys' hxs]

theorem mapE_error_iff (f : α → Except PyErr β) :
    ∀ l : List α, (∃ e, mapE f l = .error e) ↔ ∃ x ∈ l, ∃ e, f x = .error e := by
  intro l
  induction l with
  | nil => simp [mapE]
  | cons x xs ih =>
    constructor
    · rintro ⟨e, h⟩
      simp only [mapE] at h
      cases hx : f x with
      | error e' => exact ⟨x, by simp, e', hx⟩
      | ok y =>
        rw [hx] at h
        cases hxs : mapE f xs with
        | error e' =>
          obtain ⟨z, hz, hze⟩ := ih.mp ⟨e', hxs⟩
          exact ⟨z, by simp [hz], hze⟩
        | ok ys => rw [hxs] at h; exact absurd h (by simp)
    · rintro ⟨z, hz, e, hze⟩
      simp only [List.mem_cons] at hz
      rcases hz with rfl | hz
      · exact ⟨e, by simp [mapE, hze]⟩
      · cases hx : f x with
        | error e' => exact ⟨e', by simp [mapE, hx]⟩
        | ok y =>
          obtain ⟨e', he'⟩ := ih.mpr ⟨z, hz, e, hze⟩
          exact ⟨e', by simp [mapE, hx, he']⟩

/-! ## `DataProcessor.calculate_totals` (src/core/data_processor.py) -/

/-- One visits/users/pageviews triple, as in the nested dictionaries of
`calculate_totals`. -/
structure Agg where
  visits : Nat
  users : Nat
  pageviews : Nat
deriving DecidableEq

/-- The `totals` dictionary of `calculate_totals`: the `'all'` entry and the
`'sources'` sub-dictionary. -/
structure Totals where
  all : Agg
  sources : List (String × Agg)
deriving DecidableEq

def zeroAgg : Agg := ⟨0, 0, 0⟩

def addAgg (a b : Agg) : Agg :=
  ⟨a.visits + b.visits, a.users + b.users, a.pageviews + b.pageviews⟩

/-- The metrics triple carried by one `ReportData` record. -/
def recAgg (r : ReportData) : Agg := ⟨r.visits, r.users, r.pageviews⟩

/-- The `SOURCE_MAPPING` dictionary of `calculate_totals`: the identity map on
the seven canonical category keys. -/
def SOURCE_MAPPING : List (String × String) :=
  [("organic", "organic"), ("direct", "direct"), ("ad", "ad"),
   ("internal", "internal"), ("referral", "referral"),
   ("recommendation", "recommendation"), ("social", "social")]

/-- The seven canonical traffic-category keys. -/
def SOURCE_KEYS : List String :=
  ["organic", "direct", "ad", "internal", "referral", "recommendation", "social"]

/-- `totals['sources'][k] += metrics of r`, initializing the entry to zeros
first when `k` is absent — exactly the `if mapped_source not in totals['sources']`
block followed by the three `+=` lines. -/
def dictAddAgg : List (String × Agg) → String → Agg → List (String × Agg)
  | [], k, a => [(k, a)]
  | (k', v) :: rest, k, a =>
    if k' = k then (k', addAgg v a) :: rest else (k', v) :: dictAddAgg rest k a

/-- One iteration of the `for item in data` loop of `calculate_totals`. -/
def totalsStep (t : Totals) (r : ReportData) : Totals :=
  let all' := addAgg t.all (recAgg r)
  match r.traffic_source with
  | none => { all := all', sources := t.sources }
  | some s =>
    match alookup s SOURCE_MAPPING with
    | some ms => { all := all', sources := dictAddAgg t.sources ms (recAgg r) }
    | none => { all := all', sources := t.sources }

/-- `DataProcessor.calculate_totals`.  The `try/except` in the loop body can
never fire (plain integer additions and `getattr` with a default raise none of
the caught exceptions), so the fold is total. -/
def calculate_totals (data : List ReportData) : Totals :=
  data.foldl totalsStep { all := zeroAgg, sources := [] }

/-! ### Characterization lemmas for `calculate_totals` -/

theorem addAgg_zero (a : Agg) : addAgg a zeroAgg = a := by
  simp [addAgg, zeroAgg]

theorem addAgg_assoc (a b c : Agg) : addAgg (addAgg a b) c = addAgg a (addAgg b c) := by
  simp [addAgg, Nat.add_assoc]

/-- Sum of the metric triples of a record list. -/
def sumAgg : List ReportData → Agg
  | [] => zeroAgg
  | r :: rest => addAgg (recAgg r) (sumAgg rest)

theorem sumAgg_eq_components (l : List ReportData) :
    sumAgg l = ⟨(l.map ReportData.visits).sum, (l.map ReportData.users).sum,
                (l.map ReportData.pageviews).sum⟩ := by
  induction l with
  | nil => simp [sumAgg, zeroAgg]
  | cons r rest ih => simp [sumAgg, ih, addAgg, recAgg]

theorem sumAgg_append (l₁ l₂ : List ReportData) :
    sumAgg (l₁ ++ l₂) = addAgg (sumAgg l₁) (sumAgg l₂) := by
  induction l₁ with
  | nil =>
    simp [sumAgg, addAgg, zeroAgg]
  | cons r rest ih => simp [sumAgg, ih, addAgg_assoc]

theorem sumAgg_perm {l l' : List ReportData} (h : l.Perm l') : sumAgg l = sumAgg l' := by
  rw [sumAgg_eq_components, sumAgg_eq_components]
  have hv := (h.map ReportData.visits).sum_eq
  have hu := (h.map ReportData.users).sum_eq
  have hp := (h.map ReportData.pageviews).sum_eq
  rw [hv, hu, hp]

theorem source_mapping_id {s ms : String} (h : alookup s SOURCE_MAPPING = some ms) :
    ms = s := by
  simp only [SOURCE_MAPPING, alookup] at h
  split_ifs at h with h₁ h₂ h₃ h₄ h₅ h₆ h₇
  all_goals cases h
  all_goals assumption

theorem source_mapping_isSome (s : String) :
    (alookup s SOURCE_MAPPING).isSome ↔ s ∈ SOURCE_KEYS := by
  simp only [SOURCE_MAPPING, SOURCE_KEYS, alookup, List.mem_cons, List.not_mem_nil]
  split_ifs with h₁ h₂ h₃ h₄ h₅ h₆ h₇
  all_goals simp_all
  all_goals tauto

/-- The `sources` update performed by one loop iteration, stated through
`SOURCE_KEYS` membership. -/
theorem totalsStep_sources (t : Totals) (r : ReportData) :
    (totalsStep t r).sources =
      match r.traffic_source with
      | none => t.sources
      | some s =>
        if s ∈ SOURCE_KEYS then dictAddAgg t.sources s (recAgg r) else t.sources := by
  cases hts : r.traffic_source with
  | none => simp [totalsStep, hts]
  | some s =>
    simp only [totalsStep, hts]
    cases hms : alookup s SOURCE_MAPPING with
    | none =>
      have : ¬ s ∈ SOURCE_KEYS := by
        rw [← source_mapping_isSome, hms]; simp
      simp [this]
    | some ms =>
      have hmem : s ∈ SOURCE_KEYS := by
        rw [← source_mapping_isSome, hms]; simp
      have := source_mapping_id hms
      subst this
      simp [hmem]

theorem totalsStep_all (t : Totals) (r : ReportData) :
    (totalsStep t r).all = addAgg t.all (recAgg r) := by
  cases hts : r.traffic_source with
  | none => simp [totalsStep, hts]
  | some s =>
    simp only [totalsStep, hts]
    cases hms : alookup s SOURCE_MAPPING <;> simp

theorem foldl_totalsStep_all (l : List ReportData) :
    ∀ t : Totals, (l.foldl totalsStep t).all = addAgg t.all (sumAgg l) := by
  induction l with
  | nil => intro t; simp [sumAgg, addAgg_zero]
  | cons r rest ih =>
    intro t
    simp only [List.foldl_cons, ih, totalsStep_all, sumAgg, addAgg_assoc]

theorem calculate_totals_all (l : List ReportData) :
    (calculate_totals l).all = sumAgg l := by
  have := foldl_totalsStep_all l { all := zeroAgg, sources := [] }
  simpa [calculate_totals, addAgg, zeroAgg] using this

/-- Combination of optional aggregates: `none` is the neutral element. -/
def combineOpt : Option Agg → Option Agg → Option Agg
  | none, o => o
  | some a, none => some a
  | some a, some b => some (addAgg a b)

theorem combineOpt_none_right (o : Option Agg) : combineOpt o none = o := by
  cases o <;> rfl

theorem combineOpt_assoc (a b c : Option Agg) :
    combineOpt (combineOpt a b) c = combineOpt a (combineOpt b c) := by
  cases a <;> cases b <;> cases c <;> simp [combineOpt, addAgg_assoc]

/-- Contribution of one record list to the `sources` entry of a category. -/
def contrib (c : String) : List ReportData → Option Agg
  | [] => none
  | r :: rest =>
    combineOpt
      (if c ∈ SOURCE_KEYS ∧ r.traffic_source = some c then some (recAgg r) else none)
      (contrib c rest)

theorem alookup_dictAddAgg (d : List (String × Agg)) (k c : String) (a : Agg) :
    alookup c (dictAddAgg d k a) =
      if k = c then combineOpt (alookup c d) (some a) else alookup c d := by
  induction d with
  | nil => by_cases h : k = c <;> simp [dictAddAgg, alookup, h, combineOpt]
  | cons kv rest ih =>
    obtain ⟨k₀, v₀⟩ := kv
    by_cases h₀ : k₀ = k
    · subst h₀
      by_cases h : k₀ = c <;> simp [dictAddAgg, alookup, h, combineOpt]
    · by_cases h : k = c
      · subst h
        simp [dictAddAgg, h₀, alookup, ih, h₀]
      · by_cases h₁ : k₀ = c
        · subst h₁
          simp [dictAddAgg, h₀, alookup, h]
        · simp [dictAddAgg, h₀, alookup, h₁, ih, h]

theorem totalsStep_sources_lookup (t : Totals) (r : ReportData) (c : String) :
    alookup c (totalsStep t r).sources =
      combineOpt (alookup c t.sources)
        (if c ∈ SOURCE_KEYS ∧ r.traffic_source = some c then some (recAgg r) else none) := by
  rw [totalsStep_sources]
  cases hts : r.traffic_source with
  | none => simp [combineOpt_none_right]
  | some s =>
    by_cases hmem : s ∈ SOURCE_KEYS
    · simp only [hmem, if_true]
      rw [alookup_dictAddAgg]
      by_cases hsc : s = c
      · subst hsc; simp [hmem]
      · have : ¬ (c ∈ SOURCE_KEYS ∧ some s = some c) := by
          rintro ⟨-, h⟩; exact hsc (by injection h)
        simp [hsc, this, combineOpt_none_right]
    · simp only [hmem, if_false]
      have hns : ¬ (c ∈ SOURCE_KEYS ∧ s = c) := by
        rintro ⟨hc, h⟩; exact hmem (h ▸ hc)
      simp [hns, combineOpt_none_right]

theorem foldl_totalsStep_sources_lookup (l : List ReportData) :
    ∀ (t : Totals) (c : String),
      alookup c (l.foldl totalsStep t).sources =
        combineOpt (alookup c t.sources) (contrib c l) := by
  induction l with
  | nil => intro t c; simp [contrib, combineOpt_none_right]
  | cons r rest ih =>
    intro t c
    simp only [List.foldl_cons]
    rw [ih, totalsStep_sources_lookup, combineOpt_assoc]
    rfl

theorem calculate_totals_sources_lookup (l : List ReportData) (c : String) :
    alookup c (calculate_totals l).sources = contrib c l := by
  have := foldl_totalsStep_sources_lookup l { all := zeroAgg, sources := [] } c
  simpa [calculate_totals, combineOpt] using this

/-- Closed form of `contrib`: present exactly when the category is canonical
and some record maps to it, and then equal to the filtered metric sum. -/
theorem contrib_closed_form (c : String) (l : List ReportData) :
    contrib c l =
      if c ∈ SOURCE_KEYS ∧ ∃ r ∈ l, r.traffic_source = some c
      then some (sumAgg (l.filter (fun r => decide (r.traffic_source = some c))))
      else none := by
  induction l with
  | nil => simp [contrib]
  | cons r rest ih =>
    by_cases hc : c ∈ SOURCE_KEYS
    · by_cases hr : r.traffic_source = some c
      · simp only [contrib, ih, hc, hr, and_true, true_and, if_pos, List.mem_cons]
        by_cases hrest : ∃ x ∈ rest, x.traffic_source = some c
        · simp [hrest, hr, hc, combineOpt, List.filter_cons, sumAgg]
        · simp [hrest, hr, hc, combineOpt, List.filter_cons, sumAgg]
          rw [List.filter_eq_nil_iff.mpr]
          · simp [sumAgg, addAgg_zero]
          · intro x hx
            simp only [decide_eq_true_eq]
            intro hx'
            exact hrest ⟨x, hx, hx'⟩
      · simp only [contrib, ih, hc, hr, and_false, if_false, true_and, List.mem_cons]
        have hor : (∃ x, (x = r ∨ x ∈ rest) ∧ x.traffic_source = some c) ↔
            (∃ x ∈ rest, x.traffic_source = some c) := by
          constructor
          · rintro ⟨x, hx | hx, hx'⟩
            · exact absurd (hx ▸ hx') hr
            · exact ⟨x, hx, hx'⟩
          · rintro ⟨x, hx, hx'⟩; exact ⟨x, Or.inr hx, hx'⟩
        rw [List.filter_cons_of_neg (by simp [hr])]
        by_cases hrest : ∃ x ∈ rest, x.traffic_source = some c <;>
          simp [hrest, hor, hc, combineOpt]
    · simp [contrib, ih, hc, combineOpt]

/-- Zero-default category lookup (absent category keys treated as zero). -/
def lookupAggZ (c : String) (s : List (String × Agg)) : Agg :=
  (alookup c s).getD zeroAgg

theorem lookupAggZ_calculate_totals (l : List ReportData) (c : String) :
    lookupAggZ c (calculate_totals l).sources =
      if c ∈ SOURCE_KEYS
      then sumAgg (l.filter (fun r => decide (r.traffic_source = some c)))
      else zeroAgg := by
  unfold lookupAggZ
  rw [calculate_totals_sources_lookup, contrib_closed_form]
  by_cases hc : c ∈ SOURCE_KEYS
  · by_cases hex : ∃ r ∈ l, r.traffic_source = some c
    · simp [hc, hex]
    · simp only [hc, hex, and_false, true_and, if_false, if_true, Option.getD_none]
      rw [List.filter_eq_nil_iff.mpr]
      · simp [sumAgg]
      · intro x hx
        simp only [decide_eq_true_eq]
        intro hx'
        exact hex ⟨x, hx, hx'⟩
  · simp [hc]

/-- Membership in the key list of an association list, via `alookup`. -/
theorem alookup_isSome_iff_mem_keys (d : List (String × α)) (c : String) :
    (alookup c d).isSome ↔ c ∈ d.map Prod.fst := by
  induction d with
  | nil => simp [alookup]
  | cons kv rest ih =>
    obtain ⟨k, v⟩ := kv
    by_cases h : k = c <;> simp [alookup, h, ih]
    exact fun h' => absurd h'.symm h

/-! ## Interleavings: partitions of a record sequence into two sub-sequences -/

/-- `Interleave l₁ l₂ l` holds when `l₁` and `l₂` partition the sequence `l`
into two sub-sequences (each keeping its relative order). -/
inductive Interleave : List ReportData → List ReportData → List ReportData → Prop
  | nil : Interleave [] [] []
  | left {a : ReportData} {l₁ l₂ l : List ReportData} :
      Interleave l₁ l₂ l → Interleave (a :: l₁) l₂ (a :: l)
  | right {a : ReportData} {l₁ l₂ l : List ReportData} :
      Interleave l₁ l₂ l → Interleave l₁ (a :: l₂) (a :: l)

theorem interleave_perm {l₁ l₂ l : List ReportData} (h : Interleave l₁ l₂ l) :
    (l₁ ++ l₂).Perm l := by
  induction h with
  | nil => simp
  | left h ih => exact ih.cons _
  | right h ih => exact List.perm_middle.trans (ih.cons _)

/-! ## Sample data for witnesses -/

def locW : Location := { name := "Химки", region := "Москва", selected := true }

def recOrganic : ReportData :=
  { location := locW, date := ⟨2024, 1, 1⟩, visits := 100, users := 90,
    pageviews := 300, traffic_source := some "organic" }

def recDirect : ReportData :=
  { location := locW, date := ⟨2024, 1, 2⟩, visits := 50, users := 40,
    pageviews := 120, traffic_source := some "direct" }

def recUnknown : ReportData :=
  { location := locW, date := ⟨2024, 1, 3⟩, visits := 7, users := 5,
    pageviews := 9, traffic_source := some "mystery" }

def sampleRecs : List ReportData := [recOrganic, recDirect, recUnknown]

/-! ## Claim C1 -/

/-- C1: for every record sequence, `calculate_totals` adds each record's
visits/users/pageviews into the overall `all` totals unconditionally; a
category appears as a key of `sources` exactly when it is one of the seven
canonical keys and at least one record carries it, and each present entry is
the metric sum of exactly the records carrying that category — so a record
whose `traffic_source` is not canonical is counted in `all` but appears in no
entry of `sources`. -/
theorem aggregator_all_unconditional_sources_canonical (recs : List ReportData) :
    (calculate_totals recs).all = sumAgg recs
    ∧ (∀ c, c ∈ (calculate_totals recs).sources.map Prod.fst ↔
        (c ∈ SOURCE_KEYS ∧ ∃ r ∈ recs, r.traffic_source = some c))
    ∧ (∀ c a, alookup c (calculate_totals recs).sources = some a →
        a = sumAgg (recs.filter (fun r => decide (r.traffic_source = some c)))) := by
  refine ⟨calculate_totals_all recs, ?_, ?_⟩
  · intro c
    rw [← alookup_isSome_iff_mem_keys, calculate_totals_sources_lookup,
       contrib_closed_form]
    by_cases h : c ∈ SOURCE_KEYS ∧ ∃ r ∈ recs, r.traffic_source = some c <;> simp [h]
  · intro c a h
    rw [calculate_totals_sources_lookup, contrib_closed_form] at h
    by_cases hc : c ∈ SOURCE_KEYS ∧ ∃ r ∈ recs, r.traffic_source = some c
    · rw [if_pos hc] at h
      exact (Option.some_injective _ h).symm
    · rw [if_neg hc] at h
      exact absurd h (by simp)

/-- Witness for C1 at the concrete record list `sampleRecs` (whose last record
carries the unrecognized source `"mystery"`). -/
theorem aggregator_all_unconditional_sources_canonical_witness :
    (calculate_totals sampleRecs).all = sumAgg sampleRecs
    ∧ ("organic" ∈ (calculate_totals sampleRecs).sources.map Prod.fst ↔
        ("organic" ∈ SOURCE_KEYS ∧ ∃ r ∈ sampleRecs, r.traffic_source = some "organic"))
    ∧ (⟨100, 90, 300⟩ : Agg) =
        sumAgg (sampleRecs.filter (fun r => decide (r.traffic_source = some "organic"))) := by
  have h := aggregator_all_unconditional_sources_canonical sampleRecs
  exact ⟨h.1, h.2.1 "organic", h.2.2 "organic" ⟨100, 90, 300⟩ (by decide)⟩

/-! ## Claim C5 -/

/-- C5: for every partition of a record sequence into two sub-sequences,
aggregating the whole sequence equals the componentwise sum of the two
sub-aggregates, for the `all` totals and for each traffic-source category
entry, absent category keys treated as zero. -/
theorem aggregate_additive_over_partition (l₁ l₂ l : List ReportData)
    (h : Interleave l₁ l₂ l) :
    (calculate_totals l).all =
        addAgg (calculate_totals l₁).all (calculate_totals l₂).all
    ∧ ∀ c, lookupAggZ c (calculate_totals l).sources =
        addAgg (lookupAggZ c (calculate_totals l₁).sources)
               (lookupAggZ c (calculate_totals l₂).sources) := by
  have hperm := interleave_perm h
  constructor
  · rw [calculate_totals_all, calculate_totals_all, calculate_totals_all,
       ← sumAgg_append, sumAgg_perm hperm]
  · intro c
    rw [lookupAggZ_calculate_totals, lookupAggZ_calculate_totals,
       lookupAggZ_calculate_totals]
    by_cases hc : c ∈ SOURCE_KEYS
    · simp only [hc, if_true]
      calc sumAgg (l.filter (fun r => decide (r.traffic_source = some c)))
          = sumAgg ((l₁ ++ l₂).filter (fun r => decide (r.traffic_source = some c))) :=
            (sumAgg_perm (hperm.filter _)).symm
        _ = sumAgg (l₁.filter (fun r => decide (r.traffic_source = some c)) ++
              l₂.filter (fun r => decide (r.traffic_source = some c))) := by
            rw [List.filter_append]
        _ = addAgg (sumAgg (l₁.filter (fun r => decide (r.traffic_source = some c))))
              (sumAgg (l₂.filter (fun r => decide (r.traffic_source = some c)))) :=
            sumAgg_append _ _
    · simp [hc, addAgg, zeroAgg]

/-- Witness for C5 at a concrete interleaving of `[recOrganic]` and
`[recDirect]`. -/
theorem aggregate_additive_over_partition_witness :
    (calculate_totals [recOrganic, recDirect]).all =
        addAgg (calculate_totals [recOrganic]).all (calculate_totals [recDirect]).all
    ∧ lookupAggZ "organic" (calculate_totals [recOrganic, recDirect]).sources =
        addAgg (lookupAggZ "organic" (calculate_totals [recOrganic]).sources)
               (lookupAggZ "organic" (calculate_totals [recDirect]).sources) := by
  have h := aggregate_additive_over_partition [recOrganic] [recDirect]
    [recOrganic, recDirect] (Interleave.left (Interleave.right Interleave.nil))
  exact ⟨h.1, h.2 "organic"⟩

/-! ## `datetime.strptime(s, "%Y-%m-%d").date()`

CPython's `_strptime` compiles `%Y-%m-%d` to the regex
`(?P<Y>\d\d\d\d)-(?P<m>1[0-2]|0[1-9]|[1-9])-(?P<d>3[01]|[12]\d|0[1-9]|[1-9])`
which must consume the whole string, and then validates the triple through the
`datetime.date` constructor (year ≥ 1, day within the month's length).  The
month and day alternations are equivalent to maximal-munch two-digit-first
parsing, because after a successfully matched two-digit number the next
character can never be the `-` a one-digit backtrack would require. -/

def digitVal (c : Char) : Nat := c.toNat - 48

/-- Parse `1[0-2]|0[1-9]|[1-9]` at the front of the character list, returning
the month value and the unconsumed remainder. -/
def parseMonth : List Char → Option (Nat × List Char)
  | [] => none
  | [a] => if a.isDigit ∧ 1 ≤ digitVal a then some (digitVal a, []) else none
  | a :: b :: rest =>
    if a.isDigit ∧ b.isDigit then
      let v := 10 * digitVal a + digitVal b
      if 1 ≤ v ∧ v ≤ 12 then some (v, rest)
      else if 1 ≤ digitVal a then some (digitVal a, b :: rest)
      else none
    else if a.isDigit ∧ 1 ≤ digitVal a then some (digitVal a, b :: rest)
    else none

/-- Parse `3[01]|[12]\d|0[1-9]|[1-9]` at the front of the character list,
returning the day value and the unconsumed remainder. -/
def parseDay : List Char → Option (Nat × List Char)
  | [] => none
  | [a] => if a.isDigit ∧ 1 ≤ digitVal a then some (digitVal a, []) else none
  | a :: b :: rest =>
    if a.isDigit ∧ b.isDigit then
      let v := 10 * digitVal a + digitVal b
      if 1 ≤ v ∧ v ≤ 31 then some (v, rest)
      else if 1 ≤ digitVal a then some (digitVal a, b :: rest)
      else none
    else if a.isDigit ∧ 1 ≤ digitVal a then some (digitVal a, b :: rest)
    else none

def isLeapYear (y : Nat) : Bool := y % 4 = 0 && (y % 100 != 0 || y % 400 = 0)

def daysInMonth (y m : Nat) : Nat :=
  if m = 2 then (if isLeapYear y then 29 else 28)
  else if m = 4 ∨ m = 6 ∨ m = 9 ∨ m = 11 then 30
  else 31

/-- `datetime.strptime(s, "%Y-%m-%d").date()`: `none` models the `ValueError`
raised on any mismatch or calendar-invalid triple. -/
def parseDateYMD (s : String) : Option Date :=
  match s.toList with
  | y1 :: y2 :: y3 :: y4 :: '-' :: rest =>
    if y1.isDigit ∧ y2.isDigit ∧ y3.isDigit ∧ y4.isDigit then
      let y := 1000 * digitVal y1 + 100 * digitVal y2 + 10 * digitVal y3 + digitVal y4
      match parseMonth rest with
      | some (m, '-' :: rest2) =>
        match parseDay rest2 with
        | some (d, []) =>
          if 1 ≤ y ∧ d ≤ daysInMonth y m then some ⟨y, m, d⟩ else none
        | _ => none
      | _ => none
    else none
  | _ => none

/-! ## `DataProcessor.process_api_response` (src/core/data_processor.py)

The spec's `DataShapeError` is realized in the code as `DataProcessingError`:
the loop body catches `KeyError`/`IndexError`/`ValueError` and re-raises
`DataProcessingError`, aborting the whole location. -/

/-- The body of the `for row in data['data']` loop: reads `dimensions[0].name`
(IndexError when `dimensions` is empty), the optional second dimension's name,
parses the date (ValueError on failure), and reads `metrics[0..2]` (IndexError
when fewer than 3 entries); each caught exception is re-raised as
`DataProcessingError`. -/
def normalizeRow (location : Location) (row : RawRow) : Except PyErr ReportData :=
  match row.dimensions with
  | [] => .error .dataProcessingError
  | d₀ :: rest =>
    let traffic_source : Option String :=
      match rest with
      | [] => none
      | d₁ :: _ => some d₁.name
    match parseDateYMD d₀.name with
    | none => .error .dataProcessingError
    | some date =>
      match row.metrics with
      | v :: u :: p :: _ =>
        .ok { location := location, date := date, visits := v, users := u,
              pageviews := p, traffic_source := traffic_source }
      | _ => .error .dataProcessingError

/-- `DataProcessor.process_api_response`: early-returns `[]` when
`data['data']` is falsy (empty), else normalizes every row, aborting on the
first bad one. -/
def process_api_response (data : RawResponse) (location : Location) :
    Except PyErr (List ReportData) :=
  match data.data with
  | [] => .ok []
  | rows => mapE (normalizeRow location) rows

/-- A structurally invalid raw row: empty dimensions list, unparsable date in
the first dimension, or fewer than 3 metrics. -/
def badRow (row : RawRow) : Prop :=
  row.dimensions = []
  ∨ (∃ d₀, row.dimensions.head? = some d₀ ∧ parseDateYMD d₀.name = none)
  ∨ row.metrics.length < 3

theorem process_api_response_eq_mapE (data : RawResponse) (location : Location) :
    process_api_response data location = mapE (normalizeRow location) data.data := by
  obtain ⟨rows⟩ := data
  cases rows <;> rfl

theorem normalizeRow_eq (location : Location) (d₀ : Dim) (rest : List Dim)
    (metrics : List Nat) :
    normalizeRow location ⟨d₀ :: rest, metrics⟩ =
      match parseDateYMD d₀.name with
      | none => Except.error PyErr.dataProcessingError
      | some date =>
        match metrics with
        | v :: u :: p :: _ =>
          Except.ok { location := location, date := date, visits := v, users := u,
                      pageviews := p,
                      traffic_source :=
                        match rest with
                        | [] => none
                        | d₁ :: _ => some d₁.name }
        | _ => Except.error PyErr.dataProcessingError := by
  cases rest <;> rfl

theorem normalizeRow_error_iff (location : Location) (row : RawRow) :
    (∃ e, normalizeRow location row = .error e) ↔ badRow row := by
  obtain ⟨dims, metrics⟩ := row
  cases dims with
  | nil =>
    constructor
    · intro _
      exact Or.inl rfl
    · intro _
      exact ⟨.dataProcessingError, rfl⟩
  | cons d₀ rest =>
    cases hdate : parseDateYMD d₀.name with
    | none =>
      constructor
      · intro _
        exact Or.inr (Or.inl ⟨d₀, rfl, hdate⟩)
      · intro _
        refine ⟨.dataProcessingError, ?_⟩
        rw [normalizeRow_eq, hdate]
    | some date =>
      match metrics with
      | [] =>
        constructor
        · intro _
          exact Or.inr (Or.inr (by simp [badRow]))
        · intro _
          refine ⟨.dataProcessingError, ?_⟩
          rw [normalizeRow_eq, hdate]
      | [v] =>
        constructor
        · intro _
          exact Or.inr (Or.inr (by simp [badRow]))
        · intro _
          refine ⟨.dataProcessingError, ?_⟩
          rw [normalizeRow_eq, hdate]
      | [v, u] =>
        constructor
        · intro _
          exact Or.inr (Or.inr (by simp [badRow]))
        · intro _
          refine ⟨.dataProcessingError, ?_⟩
          rw [normalizeRow_eq, hdate]
      | v :: u :: p :: t =>
        constructor
        · rintro ⟨e, he⟩
          rw [normalizeRow_eq, hdate] at he
          exact absurd he (by simp)
        · rintro (h | ⟨d₀', hd₀', hparse⟩ | hlen)
          · exact absurd h (List.cons_ne_nil d₀ rest)
          · have hd : d₀' = d₀ := by
              have := hd₀'
              simp [List.head?] at this
              exact this.symm
            rw [hd, hdate] at hparse
            exact absurd hparse (by simp)
          · simp [badRow] at hlen
            omega

theorem normalizeRow_error_val (location : Location) (row : RawRow) (e : PyErr)
    (h : normalizeRow location row = .error e) : e = .dataProcessingError := by
  obtain ⟨dims, metrics⟩ := row
  cases dims with
  | nil =>
    cases h
    rfl
  | cons d₀ rest =>
    rw [normalizeRow_eq] at h
    cases hdate : parseDateYMD d₀.name <;> rw [hdate] at h
    · cases h
      rfl
    · match metrics, h with
      | [], h => cases h; rfl
      | [v], h => cases h; rfl
      | [v, u], h => cases h; rfl
      | v :: u :: p :: t, h => exact absurd h (by simp)

theorem mapE_error_val (f : α → Except PyErr β) (e₀ : PyErr)
    (hf : ∀ x e, f x = .error e → e = e₀) :
    ∀ (l : List α) (e : PyErr), mapE f l = .error e → e = e₀ := by
  intro l
  induction l with
  | nil => intro e h; exact absurd h (by simp [mapE])
  | cons x xs ih =>
    intro e h
    simp only [mapE] at h
    cases hx : f x with
    | error e' =>
      rw [hx] at h
      cases h
      exact hf x e hx
    | ok y =>
      rw [hx] at h
      cases hxs : mapE f xs with
      | error e' =>
        rw [hxs] at h
        cases h
        exact ih e hxs
      | ok ys => rw [hxs] at h; exact absurd h (by simp)

/-! ## Claim C3 -/

/-- C3: normalization of a location raises (the code's `DataProcessingError`,
the spec's `DataShapeError`) exactly when some row has an unparsable date, an
empty dimensions list, or fewer than 3 metrics; the error aborts the whole
location (no record list is produced), and on success no row is skipped (one
record per row). -/
theorem normalizer_error_iff_bad_row (data : RawResponse) (location : Location) :
    ((∃ e, process_api_response data location = .error e) ↔ ∃ row ∈ data.data, badRow row)
    ∧ (∀ e, process_api_response data location = .error e → e = .dataProcessingError)
    ∧ (∀ out, process_api_response data location = .ok out →
        out.length = data.data.length) := by
  rw [process_api_response_eq_mapE]
  refine ⟨?_, ?_, ?_⟩
  · rw [mapE_error_iff]
    constructor
    · rintro ⟨row, hrow, he⟩
      exact ⟨row, hrow, (normalizeRow_error_iff location row).mp he⟩
    · rintro ⟨row, hrow, hbad⟩
      exact ⟨row, hrow, (normalizeRow_error_iff location row).mpr hbad⟩
  · exact mapE_error_val _ _ (normalizeRow_error_val location) data.data
  · exact fun out h => mapE_ok_length _ data.data out h

/-- Witness for C3 at a concrete response whose second row has only 2
metrics. -/
theorem normalizer_error_iff_bad_row_witness :
    ((∃ e, process_api_response
        ⟨[⟨[⟨"2024-01-01", "date"⟩], [100, 90, 300]⟩,
          ⟨[⟨"2024-01-02", "date"⟩], [50, 40]⟩]⟩ locW = .error e) ↔
      ∃ row ∈ [(⟨[⟨"2024-01-01", "date"⟩], [100, 90, 300]⟩ : RawRow),
               ⟨[⟨"2024-01-02", "date"⟩], [50, 40]⟩], badRow row)
    ∧ (∀ e, process_api_response
        ⟨[⟨[⟨"2024-01-01", "date"⟩], [100, 90, 300]⟩,
          ⟨[⟨"2024-01-02", "date"⟩], [50, 40]⟩]⟩ locW = .error e →
        e = .dataProcessingError)
    ∧ (∀ out, process_api_response
        ⟨[⟨[⟨"2024-01-01", "date"⟩], [100, 90, 300]⟩,
          ⟨[⟨"2024-01-02", "date"⟩], [50, 40]⟩]⟩ locW = .ok out →
        out.length = 2) :=
  normalizer_error_iff_bad_row
    ⟨[⟨[⟨"2024-01-01", "date"⟩], [100, 90, 300]⟩,
      ⟨[⟨"2024-01-02", "date"⟩], [50, 40]⟩]⟩ locW

/-! ## Claim C9 -/

/-- C9: a raw response with an empty rows collection normalizes to the empty
record sequence and never raises. -/
theorem normalizer_empty_rows_ok (data : RawResponse) (location : Location)
    (h : data.data = []) : process_api_response data location = .ok [] := by
  obtain ⟨rows⟩ := data
  simp only at h
  subst h
  rfl

/-- Witness for C9 at the concrete empty response. -/
theorem normalizer_empty_rows_ok_witness :
    process_api_response ⟨[]⟩ locW = .ok [] :=
  normalizer_empty_rows_ok ⟨[]⟩ locW rfl

/-! ## `" - "`-splitting of location keys

`full_name.split(" - ")` in Python scans left to right, cutting at each
leftmost non-overlapping occurrence of the three-character separator. -/

/-- Python `s.split(" - ")` on the character list of `s`. -/
def splitSepDash : List Char → List (List Char)
  | ' ' :: '-' :: ' ' :: rest => [] :: splitSepDash rest
  | c :: rest =>
    match splitSepDash rest with
    | part :: parts => (c :: part) :: parts
    | [] => [[c]]
  | [] => [[]]

/-- Number of leftmost non-overlapping occurrences of `" - "`. -/
def countSepDash : List Char → Nat
  | ' ' :: '-' :: ' ' :: rest => 1 + countSepDash rest
  | _ :: rest => countSepDash rest
  | [] => 0

theorem splitSepDash_length : ∀ l : List Char,
    (splitSepDash l).length = countSepDash l + 1 := by
  intro l
  induction l using splitSepDash.induct with
  | case1 rest ih =>
    simp only [splitSepDash, countSepDash, List.length_cons, ih]
    omega
  | case2 c rest hne part parts hsplit ih =>
    rw [splitSepDash.eq_2 c rest hne, countSepDash.eq_2 c rest hne, hsplit]
    rw [hsplit] at ih
    simpa using ih
  | case3 c rest hne hsplit ih =>
    rw [hsplit] at ih
    simp at ih
  | case4 => simp [splitSepDash, countSepDash]

/-- `ExcelTrafficProcessor.extract_city_name` (src/core/excel_traffic_processor.py):
`parts[-1] if len(parts) > 1 else full_name`.  `DataProcessor.aggregate_traffic_data`
contains the identical local helper. -/
def extract_city_name (full_name : String) : String :=
  let parts := splitSepDash full_name.toList
  if parts.length > 1 then String.mk (parts.getLastD []) else full_name

/-- `region, city = location.split(" - ")` (src/core/excel_exporter.py): raises
`ValueError` unless the split yields exactly two parts. -/
def unpackRegionCity (location : String) : Except PyErr (String × String) :=
  match splitSepDash location.toList with
  | [a, b] => .ok (String.mk a, String.mk b)
  | _ => .error .valueError

/-! ## The traffic matrix builders

Two implementations exist: `DataProcessor.aggregate_traffic_data`
(src/core/data_processor.py, guards `len(item["dimensions"]) > 1`) and
`ExcelTrafficProcessor.load_traffic_data` (src/core/excel_traffic_processor.py,
reads `item["dimensions"][1]` unguarded).  `load_traffic_data` is modelled for
the default instance constructed by `ExcelExporter.export_report`, whose
`traffic_columns` keys are the seven canonical categories; its `data`
parameter stands for the parsed content of the snapshot JSON file it reads. -/

/-- The fresh per-city dictionary `{"organic": 0, ..., "social": 0}` (equally
`{key: 0 for key in self.traffic_columns.keys()}` for the default columns). -/
def initCats : List (String × Nat) :=
  [("organic", 0), ("direct", 0), ("ad", 0), ("internal", 0), ("referral", 0),
   ("recommendation", 0), ("social", 0)]

/-- `if traffic_type in traffic_data[city]: traffic_data[city][traffic_type] += visits`. -/
def innerAdd (inner : List (String × Nat)) (tt : String) (v : Nat) :
    List (String × Nat) :=
  match alookup tt inner with
  | some cur => dictSet inner tt (cur + v)
  | none => inner

/-- Loop body of `aggregate_traffic_data`: a row is examined only when
`len(item["dimensions"]) > 1`; `item["metrics"][0]` raises `IndexError` when
`metrics` is empty. -/
def aggRowStep (inner : List (String × Nat)) (item : RawRow) :
    Except PyErr (List (String × Nat)) :=
  if h : item.dimensions.length > 1 then
    let tt := (item.dimensions.get ⟨1, h⟩).id
    match item.metrics with
    | [] => .error .indexError
    | v :: _ => .ok (innerAdd inner tt v)
  else .ok inner

/-- Loop body of `load_traffic_data`: `item["dimensions"][1]["id"]` is read
without a length guard, so a row lacking a second dimension raises
`IndexError`. -/
def loadRowStep (inner : List (String × Nat)) (item : RawRow) :
    Except PyErr (List (String × Nat)) :=
  match item.dimensions.get? 1 with
  | none => .error .indexError
  | some d₁ =>
    match item.metrics with
    | [] => .error .indexError
    | v :: _ => .ok (innerAdd inner d₁.id v)

/-- One iteration of the outer `for region_city, region_data in ...` loop,
parametrized by the row step. -/
def entryStepWith
    (rowStep : List (String × Nat) → RawRow → Except PyErr (List (String × Nat)))
    (td : List (String × List (String × Nat))) (kv : String × RawResponse) :
    Except PyErr (List (String × List (String × Nat))) :=
  let city := extract_city_name kv.1
  match alookup city td with
  | none => .error .keyError
  | some inner =>
    match foldE rowStep inner kv.2.data with
    | .error e => .error e
    | .ok inner' => .ok (dictSet td city inner')

/-- The initialization loop: every encountered city is (re)set to the fresh
zero dictionary before accumulation starts. -/
def initTraffic (raw : List (String × RawResponse)) :
    List (String × List (String × Nat)) :=
  raw.foldl (fun td kv => dictSet td (extract_city_name kv.1) initCats) []

/-- `DataProcessor.aggregate_traffic_data`. -/
def aggregate_traffic_data (raw : List (String × RawResponse)) :
    Except PyErr (List (String × List (String × Nat))) :=
  foldE (entryStepWith aggRowStep) (initTraffic raw) raw

/-- `ExcelTrafficProcessor.load_traffic_data` (default traffic columns), on the
parsed snapshot content. -/
def load_traffic_data (raw : List (String × RawResponse)) :
    Except PyErr (List (String × List (String × Nat))) :=
  foldE (entryStepWith loadRowStep) (initTraffic raw) raw

/-! ### Domain-preservation lemmas for the matrix builders -/

/-- A row step preserves the key set of the per-city dictionary. -/
def RowPres
    (rowStep : List (String × Nat) → RawRow → Except PyErr (List (String × Nat))) :
    Prop :=
  ∀ inner item inner', rowStep inner item = .ok inner' →
    ∀ k, (alookup k inner').isSome = (alookup k inner).isSome

theorem alookup_innerAdd_isSome (inner : List (String × Nat)) (tt : String)
    (v : Nat) (k : String) :
    (alookup k (innerAdd inner tt v)).isSome = (alookup k inner).isSome := by
  unfold innerAdd
  cases h : alookup tt inner with
  | none => rfl
  | some cur => exact alookup_dictSet_isSome inner tt k (cur + v) (by simp [h])

theorem aggRowStep_rowPres : RowPres aggRowStep := by
  intro inner item inner' h k
  unfold aggRowStep at h
  split at h
  · cases hm : item.metrics <;> rw [hm] at h
    · exact absurd h (by simp)
    · cases h
      exact alookup_innerAdd_isSome _ _ _ _
  · cases h
    rfl

theorem loadRowStep_rowPres : RowPres loadRowStep := by
  intro inner item inner' h k
  unfold loadRowStep at h
  cases hd : item.dimensions.get? 1 <;> rw [hd] at h
  · exact absurd h (by simp)
  · cases hm : item.metrics <;> rw [hm] at h
    · exact absurd h (by simp)
    · cases h
      exact alookup_innerAdd_isSome _ _ _ _

theorem foldE_rows_pres_isSome {rowStep} (hrs : RowPres rowStep)
    (rows : List RawRow) (inner inner' : List (String × Nat))
    (h : foldE rowStep inner rows = .ok inner') :
    ∀ k, (alookup k inner').isSome = (alookup k inner).isSome := by
  have := foldE_pres rowStep
    (fun s => ∀ k, (alookup k s).isSome = (alookup k inner).isSome)
    (fun s a s' hok hq k => (hrs s a s' hok k).trans (hq k))
    rows inner inner' h (fun _ => rfl)
  exact this

/-- Invariant carried through the outer entry fold: the given city is bound to
a dictionary whose key set contains all seven canonical categories. -/
def CityCats (city : String) (td : List (String × List (String × Nat))) : Prop :=
  ∃ inner, alookup city td = some inner ∧
    ∀ c ∈ SOURCE_KEYS, (alookup c inner).isSome

theorem entryStep_pres_cityCats {rowStep} (hrs : RowPres rowStep) (city : String) :
    ∀ td kv td', entryStepWith rowStep td kv = .ok td' →
      CityCats city td → CityCats city td' := by
  rintro td kv td' hok ⟨inner, hin, hcats⟩
  simp only [entryStepWith] at hok
  cases h₀ : alookup (extract_city_name kv.1) td with
  | none => rw [h₀] at hok; exact absurd hok (by simp)
  | some inner₀ =>
    rw [h₀] at hok
    dsimp only at hok
    cases hfold : foldE rowStep inner₀ kv.2.data with
    | error e => rw [hfold] at hok; exact absurd hok (by simp)
    | ok inner₀' =>
      rw [hfold] at hok
      cases hok
      by_cases hc : extract_city_name kv.1 = city
      · subst hc
        have hinner : inner₀ = inner := by
          rw [h₀] at hin; injection hin
        refine ⟨inner₀', ?_, ?_⟩
        · rw [alookup_dictSet]
          simp
        · intro c hcmem
          rw [foldE_rows_pres_isSome hrs _ _ _ hfold c, hinner]
          exact hcats c hcmem
      · refine ⟨inner, ?_, hcats⟩
        rw [alookup_dictSet, if_neg hc]
        exact hin

theorem initTraffic_vals (raw : List (String × RawResponse)) :
    ∀ k v, alookup k (initTraffic raw) = some v → v = initCats := by
  unfold initTraffic
  suffices h : ∀ (l : List (String × RawResponse))
      (td : List (String × List (String × Nat))),
      (∀ k v, alookup k td = some v → v = initCats) →
      ∀ k v, alookup k (l.foldl
        (fun td kv => dictSet td (extract_city_name kv.1) initCats) td) = some v →
        v = initCats by
    exact h raw [] (fun k v hv => absurd hv (by simp))
  intro l
  induction l with
  | nil => intro td htd k v hv; exact htd k v hv
  | cons kv rest ih =>
    intro td htd k v hv
    refine ih _ ?_ k v hv
    intro k' v' hv'
    rw [alookup_dictSet] at hv'
    by_cases h : extract_city_name kv.1 = k'
    · rw [if_pos h] at hv'
      injection hv' with h'
      exact h'.symm
    · rw [if_neg h] at hv'
      exact htd k' v' hv'

theorem foldl_dictSet_mono (l : List (String × RawResponse)) :
    ∀ (td : List (String × List (String × Nat))) (k : String),
      (alookup k td).isSome →
      (alookup k (l.foldl
        (fun td kv => dictSet td (extract_city_name kv.1) initCats) td)).isSome := by
  induction l with
  | nil => intro td k h; exact h
  | cons kv rest ih =>
    intro td k h
    exact ih _ k (alookup_isSome_dictSet td (extract_city_name kv.1) k initCats h)

theorem initTraffic_isSome (raw : List (String × RawResponse)) :
    ∀ kv ∈ raw, (alookup (extract_city_name kv.1) (initTraffic raw)).isSome := by
  unfold initTraffic
  suffices h : ∀ (l : List (String × RawResponse))
      (td : List (String × List (String × Nat))),
      ∀ kv ∈ l, (alookup (extract_city_name kv.1) (l.foldl
        (fun td kv => dictSet td (extract_city_name kv.1) initCats) td)).isSome by
    exact h raw []
  intro l
  induction l with
  | nil => intro td kv h; exact absurd h (by simp)
  | cons kv₀ rest ih =>
    intro td kv h
    simp only [List.mem_cons] at h
    rcases h with rfl | h
    · simp only [List.foldl_cons]
      refine foldl_dictSet_mono rest _ _ ?_
      rw [alookup_dictSet]
      simp
    · exact ih _ kv h

theorem initCats_cats : ∀ c ∈ SOURCE_KEYS, (alookup c initCats).isSome := by
  decide

theorem initTraffic_cityCats (raw : List (String × RawResponse)) (kv : String × RawResponse)
    (h : kv ∈ raw) : CityCats (extract_city_name kv.1) (initTraffic raw) := by
  have hs := initTraffic_isSome raw kv h
  cases hv : alookup (extract_city_name kv.1) (initTraffic raw) with
  | none => rw [hv] at hs; exact absurd hs (by simp)
  | some inner =>
    have := initTraffic_vals raw _ _ hv
    subst this
    exact ⟨initCats, hv, initCats_cats⟩

theorem matrix_cityCats {rowStep} (hrs : RowPres rowStep)
    (raw : List (String × RawResponse)) (m : List (String × List (String × Nat)))
    (h : foldE (entryStepWith rowStep) (initTraffic raw) raw = .ok m)
    (kv : String × RawResponse) (hkv : kv ∈ raw) :
    CityCats (extract_city_name kv.1) m :=
  foldE_pres (entryStepWith rowStep) (CityCats (extract_city_name kv.1))
    (entryStep_pres_cityCats hrs (extract_city_name kv.1)) raw (initTraffic raw) m h
    (initTraffic_cityCats raw kv hkv)

/-! ## Claim C2 -/

/-- C2: for every input mapping, every city extracted from a key of the input
appears as a key of the built matrix, and its inner mapping contains all seven
canonical traffic categories with a (necessarily nonnegative) value, even when
the city contributed no matching rows — for both implementations of the
matrix builder. -/
theorem build_matrix_city_complete (raw : List (String × RawResponse)) :
    (∀ m, aggregate_traffic_data raw = .ok m → ∀ kv ∈ raw,
      ∃ inner, alookup (extract_city_name kv.1) m = some inner ∧
        ∀ c ∈ SOURCE_KEYS, ∃ v, alookup c inner = some v ∧ 0 ≤ v)
    ∧ (∀ m, load_traffic_data raw = .ok m → ∀ kv ∈ raw,
      ∃ inner, alookup (extract_city_name kv.1) m = some inner ∧
        ∀ c ∈ SOURCE_KEYS, ∃ v, alookup c inner = some v ∧ 0 ≤ v) := by
  constructor
  · intro m hm kv hkv
    obtain ⟨inner, hin, hcats⟩ := matrix_cityCats aggRowStep_rowPres raw m hm kv hkv
    refine ⟨inner, hin, fun c hc => ?_⟩
    obtain ⟨v, hv⟩ := Option.isSome_iff_exists.mp (hcats c hc)
    exact ⟨v, hv, Nat.zero_le v⟩
  · intro m hm kv hkv
    obtain ⟨inner, hin, hcats⟩ := matrix_cityCats loadRowStep_rowPres raw m hm kv hkv
    refine ⟨inner, hin, fun c hc => ?_⟩
    obtain ⟨v, hv⟩ := Option.isSome_iff_exists.mp (hcats c hc)
    exact ⟨v, hv, Nat.zero_le v⟩

/-- The concrete raw response used by the matrix-builder witnesses. -/
def respW : RawResponse :=
  ⟨[⟨[⟨"2024-01-01", "date"⟩, ⟨"Поисковые системы", "organic"⟩], [100, 90, 300]⟩]⟩

/-- Witness for C2 at the concrete input `[("Москва - Химки", respW)]`. -/
theorem build_matrix_city_complete_witness :
    ∃ inner,
      alookup (extract_city_name "Москва - Химки")
        [("Химки", [("organic", 100), ("direct", 0), ("ad", 0), ("internal", 0),
                    ("referral", 0), ("recommendation", 0), ("social", 0)])] = some inner ∧
      ∀ c ∈ SOURCE_KEYS, ∃ v, alookup c inner = some v ∧ 0 ≤ v :=
  (build_matrix_city_complete [("Москва - Химки", respW)]).1
    [("Химки", [("organic", 100), ("direct", 0), ("ad", 0), ("internal", 0),
                ("referral", 0), ("recommendation", 0), ("social", 0)])]
    (by decide) ("Москва - Химки", respW) (by decide)

/-! ### Exact contribution values of the matrix builders -/

/-- Value a single raw row contributes to category `c`: its first metric when
its second dimension's identifier is `c`, else nothing. -/
def rowContrib (c : String) (item : RawRow) : Nat :=
  match item.dimensions.get? 1, item.metrics with
  | some d₁, v :: _ => if d₁.id = c then v else 0
  | _, _ => 0

/-- Value a whole response contributes to category `c`. -/
def respContrib (c : String) (resp : RawResponse) : Nat :=
  (resp.data.map (rowContrib c)).sum

/-- Value accumulated into `matrix[city][c]` over all entries whose key
extracts to `city`. -/
def cityCatTotal (raw : List (String × RawResponse)) (city c : String) : Nat :=
  (raw.map (fun kv =>
    if extract_city_name kv.1 = city then respContrib c kv.2 else 0)).sum

theorem alookup_innerAdd (inner : List (String × Nat)) (tt : String) (v : Nat)
    (c : String) (cur : Nat) (h : alookup c inner = some cur) :
    alookup c (innerAdd inner tt v) = some (if tt = c then cur + v else cur) := by
  unfold innerAdd
  cases htt : alookup tt inner with
  | none =>
    have hne : tt ≠ c := by
      intro hh
      rw [hh, h] at htt
      cases htt
    simp [h, hne]
  | some curtt =>
    rw [alookup_dictSet]
    by_cases htc : tt = c
    · subst htc
      rw [htt] at h
      injection h with h'
      simp [h']
    · simp [htc, h]

theorem foldE_aggRowStep_val (c : String) :
    ∀ (rows : List RawRow) (inner inner' : List (String × Nat)),
      foldE aggRowStep inner rows = .ok inner' →
      ∀ v, alookup c inner = some v →
        alookup c inner' = some (v + (rows.map (rowContrib c)).sum) := by
  intro rows
  induction rows with
  | nil =>
    intro inner inner' h v hv
    simp only [foldE] at h
    cases h
    simpa using hv
  | cons item rest ih =>
    intro inner inner' h v hv
    simp only [foldE] at h
    cases hstep : aggRowStep inner item with
    | error e => rw [hstep] at h; exact absurd h (by simp)
    | ok inner₁ =>
      rw [hstep] at h
      unfold aggRowStep at hstep
      split at hstep
      · rename_i hdim
        cases hm : item.metrics with
        | nil => rw [hm] at hstep; exact absurd hstep (by simp)
        | cons v₀ vrest =>
          rw [hm] at hstep
          injection hstep with hstep
          have hget : item.dimensions.get? 1 = some (item.dimensions.get ⟨1, hdim⟩) :=
            List.get?_eq_get hdim
          have hcontrib : rowContrib c item =
              if (item.dimensions.get ⟨1, hdim⟩).id = c then v₀ else 0 := by
            unfold rowContrib
            rw [hget, hm]
          have h₁ : alookup c inner₁ =
              some (if (item.dimensions.get ⟨1, hdim⟩).id = c then v + v₀ else v) := by
            rw [← hstep]
            exact alookup_innerAdd inner _ v₀ c v hv
          have := ih inner₁ inner' h _ h₁
          rw [this, List.map_cons, List.sum_cons, hcontrib]
          congr 1
          by_cases hc : (item.dimensions.get ⟨1, hdim⟩).id = c
          · rw [if_pos hc, if_pos hc]
            omega
          · rw [if_neg hc, if_neg hc]
            omega
      · rename_i hdim
        injection hstep with hstep
        have hget : item.dimensions.get? 1 = none := by
          rw [List.get?_eq_none]
          omega
        have hcontrib : rowContrib c item = 0 := by
          unfold rowContrib
          rw [hget]
        have := ih inner₁ inner' h v (hstep ▸ hv)
        rw [this, List.map_cons, List.sum_cons, hcontrib]
        simp

theorem foldE_aggEntry_val (city c : String) :
    ∀ (entries : List (String × RawResponse)) (td m : List (String × List (String × Nat))),
      foldE (entryStepWith aggRowStep) td entries = .ok m →
      ∀ inner, alookup city td = some inner →
      ∀ v, alookup c inner = some v →
        ∃ inner', alookup city m = some inner' ∧
          alookup c inner' = some (v + cityCatTotal entries city c) := by
  intro entries
  induction entries with
  | nil =>
    intro td m h inner hin v hv
    simp only [foldE] at h
    cases h
    exact ⟨inner, hin, by simpa [cityCatTotal] using hv⟩
  | cons kv rest ih =>
    intro td m h inner hin v hv
    simp only [foldE] at h
    cases hstep : entryStepWith aggRowStep td kv with
    | error e => rw [hstep] at h; exact absurd h (by simp)
    | ok td₁ =>
      rw [hstep] at h
      simp only [entryStepWith] at hstep
      cases h₀ : alookup (extract_city_name kv.1) td with
      | none => rw [h₀] at hstep; exact absurd hstep (by simp)
      | some inner₀ =>
        rw [h₀] at hstep
        dsimp only at hstep
        cases hfold : foldE aggRowStep inner₀ kv.2.data with
        | error e => rw [hfold] at hstep; exact absurd hstep (by simp)
        | ok inner₀' =>
          rw [hfold] at hstep
          injection hstep with hstep
          by_cases hc : extract_city_name kv.1 = city
          · have hinner : inner₀ = inner := by
              rw [hc, hin] at h₀
              injection h₀ with h'
              exact h'.symm
            subst hinner
            have h₁ : alookup c inner₀' =
                some (v + (kv.2.data.map (rowContrib c)).sum) :=
              foldE_aggRowStep_val c kv.2.data inner₀ inner₀' hfold v hv
            have hin₁ : alookup city td₁ = some inner₀' := by
              rw [← hstep, hc, alookup_dictSet]
              simp
            obtain ⟨inner'', hin'', hval⟩ := ih td₁ m h inner₀' hin₁ _ h₁
            refine ⟨inner'', hin'', ?_⟩
            rw [hval]
            simp only [cityCatTotal, List.map_cons, List.sum_cons, respContrib]
            rw [if_pos hc]
            congr 1
            omega
          · have hin₁ : alookup city td₁ = some inner := by
              rw [← hstep, alookup_dictSet, if_neg hc]
              exact hin
            obtain ⟨inner'', hin'', hval⟩ := ih td₁ m h inner hin₁ v hv
            refine ⟨inner'', hin'', ?_⟩
            rw [hval]
            simp [cityCatTotal, List.map_cons, List.sum_cons, hc]

/-- Key sets are preserved pointwise through the outer entry fold. -/
theorem foldE_entry_pres_isSome {rowStep}
    (entries : List (String × RawResponse)) (td m : List (String × List (String × Nat)))
    (h : foldE (entryStepWith rowStep) td entries = .ok m) :
    ∀ k, (alookup k m).isSome = (alookup k td).isSome := by
  refine foldE_pres (entryStepWith rowStep)
    (fun s => ∀ k, (alookup k s).isSome = (alookup k td).isSome)
    ?_ entries td m h (fun _ => rfl)
  intro s kv s' hok hq k
  simp only [entryStepWith] at hok
  cases h₀ : alookup (extract_city_name kv.1) s with
  | none => rw [h₀] at hok; exact absurd hok (by simp)
  | some inner₀ =>
    rw [h₀] at hok
    dsimp only at hok
    cases hfold : foldE rowStep inner₀ kv.2.data with
    | error e => rw [hfold] at hok; exact absurd hok (by simp)
    | ok inner₀' =>
      rw [hfold] at hok
      injection hok with hok
      rw [← hok, alookup_dictSet_isSome _ _ _ _ (by simp [h₀])]
      exact hq k

theorem initCats_zero : ∀ c ∈ SOURCE_KEYS, alookup c initCats = some 0 := by
  decide

theorem foldE_aggRowStep_ok :
    ∀ (rows : List RawRow) (inner : List (String × Nat)),
      (∀ item ∈ rows, item.dimensions.length ≤ 1 ∨ item.metrics ≠ []) →
      ∃ inner', foldE aggRowStep inner rows = .ok inner' := by
  intro rows
  induction rows with
  | nil => intro inner _; exact ⟨inner, rfl⟩
  | cons item rest ih =>
    intro inner hwf
    have hitem := hwf item (by simp)
    have hstep : ∃ inner₁, aggRowStep inner item = .ok inner₁ := by
      unfold aggRowStep
      split
      · rename_i hdim
        cases hm : item.metrics with
        | nil =>
          rcases hitem with h | h
          · omega
          · exact absurd hm h
        | cons v vrest => exact ⟨_, rfl⟩
      · exact ⟨inner, rfl⟩
    obtain ⟨inner₁, hstep⟩ := hstep
    obtain ⟨inner', hrest⟩ := ih inner₁ (fun it hit => hwf it (by simp [hit]))
    exact ⟨inner', by simp only [foldE, hstep, hrest]⟩

theorem foldE_aggEntry_ok :
    ∀ (entries : List (String × RawResponse)) (td : List (String × List (String × Nat))),
      (∀ kv ∈ entries, (alookup (extract_city_name kv.1) td).isSome) →
      (∀ kv ∈ entries, ∀ item ∈ kv.2.data,
        item.dimensions.length ≤ 1 ∨ item.metrics ≠ []) →
      ∃ m, foldE (entryStepWith aggRowStep) td entries = .ok m := by
  intro entries
  induction entries with
  | nil => intro td _ _; exact ⟨td, rfl⟩
  | cons kv rest ih =>
    intro td hpres hwf
    have hkv := hpres kv (by simp)
    cases h₀ : alookup (extract_city_name kv.1) td with
    | none => rw [h₀] at hkv; exact absurd hkv (by simp)
    | some inner₀ =>
      obtain ⟨inner₀', hfold⟩ :=
        foldE_aggRowStep_ok kv.2.data inner₀ (hwf kv (by simp))
      have hstep : entryStepWith aggRowStep td kv = .ok (dictSet td (extract_city_name kv.1) inner₀') := by
        simp only [entryStepWith, h₀, hfold]
      obtain ⟨m, hm⟩ := ih (dictSet td (extract_city_name kv.1) inner₀')
        (fun kv' hkv' => by
          rw [alookup_dictSet_isSome _ _ _ _ (by simp [h₀])]
          exact hpres kv' (by simp [hkv']))
        (fun kv' hkv' => hwf kv' (by simp [hkv']))
      exact ⟨m, by simp only [foldE, hstep, hm]⟩

theorem foldE_loadRowStep_err_val :
    ∀ (rows : List RawRow) (inner : List (String × Nat)) (e : PyErr),
      foldE loadRowStep inner rows = .error e → e = .indexError := by
  intro rows
  induction rows with
  | nil => intro inner e h; exact absurd h (by simp [foldE])
  | cons item rest ih =>
    intro inner e h
    simp only [foldE] at h
    cases hstep : loadRowStep inner item with
    | error e' =>
      rw [hstep] at h
      injection h with h'
      subst h'
      unfold loadRowStep at hstep
      cases hd : item.dimensions.get? 1 <;> rw [hd] at hstep
      · injection hstep with h''
        exact h''.symm
      · cases hm : item.metrics <;> rw [hm] at hstep
        · injection hstep with h''
          exact h''.symm
        · exact absurd hstep (by simp)
    | ok inner₁ =>
      rw [hstep] at h
      exact ih inner₁ e h

theorem foldE_loadRowStep_err :
    ∀ (rows : List RawRow) (inner : List (String × Nat)),
      (∃ item ∈ rows, item.dimensions.length ≤ 1) →
      foldE loadRowStep inner rows = .error .indexError := by
  intro rows
  induction rows with
  | nil => rintro inner ⟨item, h, -⟩; exact absurd h (by simp)
  | cons item₀ rest ih =>
    rintro inner ⟨item, hmem, hlen⟩
    simp only [List.mem_cons] at hmem
    by_cases h₀ : item₀.dimensions.length ≤ 1
    · have hd : item₀.dimensions.get? 1 = none := by
        rw [List.get?_eq_none]
        omega
      simp only [foldE, loadRowStep, hd]
    · cases hd : item₀.dimensions.get? 1 with
      | none =>
        simp only [foldE, loadRowStep, hd]
      | some d₁ =>
        cases hm : item₀.metrics with
        | nil => simp only [foldE, loadRowStep, hd, hm]
        | cons v vrest =>
          have hbad : ∃ it ∈ rest, it.dimensions.length ≤ 1 := by
            rcases hmem with rfl | hmem
            · exact absurd hlen h₀
            · exact ⟨item, hmem, hlen⟩
          simp only [foldE, loadRowStep, hd, hm]
          exact ih _ hbad

theorem foldE_loadEntry_err :
    ∀ (entries : List (String × RawResponse)) (td : List (String × List (String × Nat))),
      (∀ kv ∈ entries, (alookup (extract_city_name kv.1) td).isSome) →
      (∃ kv ∈ entries, ∃ item ∈ kv.2.data, item.dimensions.length ≤ 1) →
      foldE (entryStepWith loadRowStep) td entries = .error .indexError := by
  intro entries
  induction entries with
  | nil =>
    rintro td _ ⟨kv, h, -⟩
    exact absurd h (by simp)
  | cons kv₀ rest ih =>
    rintro td hpres ⟨kv, hmem, hbad⟩
    simp only [List.mem_cons] at hmem
    have hkv₀ := hpres kv₀ (by simp)
    cases h₀ : alookup (extract_city_name kv₀.1) td with
    | none => rw [h₀] at hkv₀; exact absurd hkv₀ (by simp)
    | some inner₀ =>
      cases hfold : foldE loadRowStep inner₀ kv₀.2.data with
      | error e =>
        have he := foldE_loadRowStep_err_val kv₀.2.data inner₀ e hfold
        subst he
        simp only [foldE, entryStepWith, h₀, hfold]
      | ok inner₀' =>
        have hstep : entryStepWith loadRowStep td kv₀ =
            .ok (dictSet td (extract_city_name kv₀.1) inner₀') := by
          simp only [entryStepWith, h₀, hfold]
        have hrest : ∃ kv ∈ rest, ∃ item ∈ kv.2.data, item.dimensions.length ≤ 1 := by
          rcases hmem with hkveq | hmem
          · obtain ⟨item, hit, hlen⟩ := hbad
            rw [hkveq] at hit
            have := foldE_loadRowStep_err kv₀.2.data inner₀ ⟨item, hit, hlen⟩
            rw [this] at hfold
            exact absurd hfold (by simp)
          · exact ⟨kv, hmem, hbad⟩
        simp only [foldE, hstep]
        exact ih _ (fun kv' hkv' => by
          rw [alookup_dictSet_isSome _ _ _ _ (by simp [h₀])]
          exact hpres kv' (by simp [hkv'])) hrest

/-! ## Claim C4 -/

/-- C4 counterexample: `ExcelTrafficProcessor.load_traffic_data` raises
`IndexError` — rather than ignoring the row — on an input whose single row has
no second dimension. -/
theorem build_matrix_missing_dim_not_ignored_cex :
    load_traffic_data
        [("Регион - Город", ⟨[⟨[⟨"2024-01-01", "date"⟩], [5, 4, 3]⟩]⟩)] =
      .error .indexError := by
  decide

/-- C4 (amended): in `DataProcessor.aggregate_traffic_data` a row contributes
its first metric to `matrix[city][category]` exactly per the
second-dimension-identifier rule (`cityCatTotal`), and rows lacking a second
dimension or carrying an unrecognized identifier are ignored without error;
in `ExcelTrafficProcessor.load_traffic_data`, however, any row lacking a
second dimension makes the whole load raise `IndexError` instead of being
ignored. -/
theorem build_matrix_second_dim_contribution (raw : List (String × RawResponse)) :
    (∀ m, aggregate_traffic_data raw = .ok m →
      ∀ city inner, alookup city m = some inner →
        ∀ c ∈ SOURCE_KEYS, alookup c inner = some (cityCatTotal raw city c))
    ∧ ((∀ kv ∈ raw, ∀ item ∈ kv.2.data,
          item.dimensions.length ≤ 1 ∨ item.metrics ≠ []) →
        ∃ m, aggregate_traffic_data raw = .ok m)
    ∧ ((∃ kv ∈ raw, ∃ item ∈ kv.2.data, item.dimensions.length ≤ 1) →
        load_traffic_data raw = .error .indexError) := by
  refine ⟨?_, ?_, ?_⟩
  · intro m hm city inner hin c hc
    have hsome : (alookup city m).isSome := by simp [hin]
    have hpres := foldE_entry_pres_isSome raw (initTraffic raw) m hm city
    rw [hpres] at hsome
    cases hv : alookup city (initTraffic raw) with
    | none => rw [hv] at hsome; exact absurd hsome (by simp)
    | some v =>
      have hvi := initTraffic_vals raw city v hv
      subst hvi
      obtain ⟨inner', hin', hval⟩ :=
        foldE_aggEntry_val city c raw (initTraffic raw) m hm initCats hv 0
          (initCats_zero c hc)
      have : inner' = inner := by
        rw [hin] at hin'
        injection hin' with h'
        exact h'.symm
      subst this
      rw [hval]
      simp
  · intro hwf
    exact foldE_aggEntry_ok raw (initTraffic raw) (initTraffic_isSome raw) hwf
  · intro hbad
    exact foldE_loadEntry_err raw (initTraffic raw) (initTraffic_isSome raw) hbad

/-- Witness for the amended C4 at the concrete input
`[("Москва - Химки", respW)]`. -/
theorem build_matrix_second_dim_contribution_witness :
    alookup "organic"
        [("organic", 100), ("direct", 0), ("ad", 0), ("internal", 0),
         ("referral", 0), ("recommendation", 0), ("social", 0)] =
      some (cityCatTotal [("Москва - Химки", respW)] "Химки" "organic") :=
  (build_matrix_second_dim_contribution [("Москва - Химки", respW)]).1
    [("Химки", [("organic", 100), ("direct", 0), ("ad", 0), ("internal", 0),
                ("referral", 0), ("recommendation", 0), ("social", 0)])]
    (by decide) "Химки"
    [("organic", 100), ("direct", 0), ("ad", 0), ("internal", 0),
     ("referral", 0), ("recommendation", 0), ("social", 0)]
    (by decide) "organic" (by decide)

/-! ## Workbook model (src/core/excel_exporter.py, src/core/excel_traffic_processor.py)

A worksheet is the list of its appended rows; a cell holds a string or a
number (Python ints and the float results of `/` are both modelled in `ℚ`);
an absent cell reads as `None`.  A workbook is the insertion-ordered list of
its named sheets.  Fonts/alignment styling carries no cell values and is not
modelled. -/

inductive CellValue where
  | s (v : String)
  | n (v : ℚ)
deriving DecidableEq

/-- One worksheet row; index 0 is column A. -/
abbrev WsRow := List (Option CellValue)

abbrev Worksheet := List WsRow

abbrev Workbook := List (String × Worksheet)

/-- Reading cell `col` of a row: absent cells read as `None`. -/
def cellVal (row : WsRow) (col : Nat) : Option CellValue :=
  (row.get? col).bind id

/-- `sheet[f"{column}{row}"] = v`: writes the cell, extending the row with
empty cells as needed. -/
def setCellAt : WsRow → Nat → CellValue → WsRow
  | [], 0, v => [some v]
  | [], n + 1, v => none :: setCellAt [] n v
  | _ :: rest, 0, v => some v :: rest
  | c :: rest, n + 1, v => c :: setCellAt rest n v

/-- Python `/` on the integer metric counts: raises `ZeroDivisionError` on a
zero divisor, else produces the exact quotient. -/
def pyDivNat (a b : Nat) : Except PyErr ℚ :=
  if b = 0 then .error .zeroDivisionError else .ok ((a : ℚ) / (b : ℚ))

/-- The cell expression `pageviews / visits if visits > 0 else 0`, used both
on the summary sheet (per-location totals) and on the per-city sheets
(per-record). -/
def depthCellE (pageviews visits : Nat) : Except PyErr ℚ :=
  if visits > 0 then pyDivNat pageviews visits else .ok 0

/-- `ExcelExporter.TRAFFIC_HEADERS`. -/
def TRAFFIC_HEADERS : List (String × String) :=
  [("organic", "Поисковые"), ("direct", "Прямые"), ("ad", "Реклама"),
   ("internal", "Внутренние"), ("referral", "Ссылки"),
   ("recommendation", "Рекомендации"), ("social", "Соцсети")]

/-- Header row of the summary sheet. -/
def summaryHeaderRow : WsRow :=
  ([some (.s "Регион"), some (.s "Город"), some (.s "Визиты"),
    some (.s "Посетители"), some (.s "Просмотры"),
    some (.s "Глубина просмотра")] : WsRow) ++
  TRAFFIC_HEADERS.map (fun kv => some (.s kv.2))

/-- One data row of the summary sheet (`ExcelExporter._create_summary_sheet`,
loop body): `region, city = location.split(" - ")`, per-location totals, the
zero-guarded depth-of-view, then per-category visit counts from
`totals['sources'].get(source_key, {}).get('visits', 0)`. -/
def summaryDataRow (location : String) (recs : List ReportData) :
    Except PyErr WsRow :=
  match unpackRegionCity location with
  | .error e => .error e
  | .ok (region, city) =>
    let totals := calculate_totals recs
    match depthCellE totals.all.pageviews totals.all.visits with
    | .error e => .error e
    | .ok depth =>
      .ok (([some (.s region), some (.s city), some (.n (totals.all.visits : ℚ)),
             some (.n (totals.all.users : ℚ)), some (.n (totals.all.pageviews : ℚ)),
             some (.n depth)] : WsRow) ++
           TRAFFIC_HEADERS.map (fun kv =>
             some (.n ((lookupAggZ kv.1 totals.sources).visits : ℚ))))

/-- `ExcelExporter._create_summary_sheet`: header block, blank row, header
row, then one data row per location in input order. -/
def create_summary_sheet (data : List (String × List ReportData))
    (date_from date_to filters : String) : Except PyErr Worksheet :=
  let headerRows : Worksheet :=
    [[some (.s s!"Отчет за период с {date_from} по {date_to}")],
     [some (.s "Название отчета: Яндекс.Метрика - Аналитика по городам")]] ++
    (if filters ≠ "" then [[some (.s s!"Фильтры: {filters}")]] else []) ++
    [[], summaryHeaderRow]
  match mapE (fun kv => summaryDataRow kv.1 kv.2) data with
  | .error e => .error e
  | .ok dataRows => .ok (headerRows ++ dataRows)

def natPad2 (n : Nat) : String := if n < 10 then "0" ++ toString n else toString n

/-- `item.date.strftime("%Y-%m-%d")` (glibc: month and day zero-padded). -/
def dateToStr (d : Date) : String :=
  toString d.year ++ "-" ++ natPad2 d.month ++ "-" ++ natPad2 d.day

/-- `self.TRAFFIC_HEADERS.get(item.traffic_source, item.traffic_source or "Другие")`. -/
def sourceDisplayName (ts : Option String) : String :=
  match ts with
  | none => "Другие"
  | some s =>
    match alookup s TRAFFIC_HEADERS with
    | some h => h
    | none => if s = "" then "Другие" else s

/-- One data row of a per-city sheet (`ExcelExporter._create_city_sheet`,
loop body). -/
def cityRecordRow (r : ReportData) : Except PyErr WsRow :=
  match depthCellE r.pageviews r.visits with
  | .error e => .error e
  | .ok depth =>
    .ok [some (.s (dateToStr r.date)), some (.s (sourceDisplayName r.traffic_source)),
         some (.n (r.visits : ℚ)), some (.n (r.users : ℚ)), some (.n depth)]

def SHEET_NAME_MAX_LENGTH : Nat := 31

/-- `ExcelExporter._create_city_sheet`: unpacks the location key, truncates
the city name to the worksheet-name limit, writes the header block and one
row per record. -/
def create_city_sheet (location : String) (recs : List ReportData)
    (date_from date_to filters : String) : Except PyErr (String × Worksheet) :=
  match unpackRegionCity location with
  | .error e => .error e
  | .ok (_, city) =>
    let headerRows : Worksheet :=
      [[some (.s s!"Отчет за период с {date_from} по {date_to}")],
       [some (.s s!"Название отчета: Яндекс.Метрика - {city}")]] ++
      (if filters ≠ ""
       then [[some (.s (s!"Фильтры: {filters} и Город = " ++ "\x27" ++ city ++ "\x27"))]]
       else []) ++
      [[], [some (.s "Дата"), some (.s "Источник трафика"), some (.s "Визиты"),
            some (.s "Посетители"), some (.s "Глубина просмотра")]]
    match mapE cityRecordRow recs with
    | .error e => .error e
    | .ok dataRows =>
      .ok (String.mk (city.toList.take SHEET_NAME_MAX_LENGTH), headerRows ++ dataRows)

/-! ## `ExcelTrafficProcessor.update_excel` and the composed export -/

/-- Default `traffic_columns` of `ExcelTrafficProcessor`: categories mapped to
columns G..M, i.e. 0-based column indices 6..12. -/
def trafficColumns : List (String × Nat) :=
  [("organic", 6), ("direct", 7), ("ad", 8), ("internal", 9), ("referral", 10),
   ("recommendation", 11), ("social", 12)]

/-- Per-row body of `update_excel`'s loop: reads the city column (B, index 1);
when the value is a string present in `traffic_data`, overwrites each
configured category column with `self.traffic_data[city][traffic_type]`
(a `KeyError` if the inner dictionary lacks the category). -/
def patchRow (td : List (String × List (String × Nat))) (row : WsRow) :
    Except PyErr WsRow :=
  match cellVal row 1 with
  | some (.s city) =>
    match alookup city td with
    | some inner =>
      foldE (fun r kc =>
        match alookup kc.1 inner with
        | some v => .ok (setCellAt r kc.2 (.n (v : ℚ)))
        | none => .error .keyError) row trafficColumns
    | none => .ok row
  | _ => .ok row

/-- `ExcelTrafficProcessor.update_excel`: `wb[self.sheet_name]` raises the
builtin `KeyError` when the sheet is absent (openpyxl's mapping-style
lookup); otherwise every row is scanned and patched, and the workbook is
saved with the modified sheet. -/
def update_excel (wb : Workbook) (sheet_name : String)
    (td : List (String × List (String × Nat))) : Except PyErr Workbook :=
  match pyGetItem wb sheet_name with
  | .error e => .error e
  | .ok sheet =>
    match mapE (patchRow td) sheet with
    | .error e => .error e
    | .ok sheet' => .ok (dictSet wb sheet_name sheet')

/-- `ExcelTrafficProcessor.process`: loads the snapshot file's mapping, then
patches the workbook.  No exception handling happens at this level. -/
def process (snapshot : List (String × RawResponse)) (wb : Workbook) :
    Except PyErr Workbook :=
  match load_traffic_data snapshot with
  | .error e => .error e
  | .ok td => update_excel wb "Сводка" td

/-- `ExcelExporter.export_report`: builds the summary sheet, then one sheet
per location, then runs the traffic processor (which loads the persisted
snapshot mapping `snapshot` from its JSON path and patches the summary
sheet).  Any raised exception is caught and re-raised as the generic
`ExcelExportError`. -/
def export_report (data : List (String × List ReportData))
    (snapshot : List (String × RawResponse)) (date_from date_to filters : String) :
    Except PyErr Workbook :=
  let pipeline : Except PyErr Workbook :=
    match create_summary_sheet data date_from date_to filters with
    | .error e => .error e
    | .ok summary =>
      match mapE (fun kv => create_city_sheet kv.1 kv.2 date_from date_to filters) data with
      | .error e => .error e
      | .ok citySheets =>
        match load_traffic_data snapshot with
        | .error e => .error e
        | .ok td => update_excel (("Сводка", summary) :: citySheets) "Сводка" td
  match pipeline with
  | .ok wb => .ok wb
  | .error _ => .error .excelExportError

/-! ### Helper lemmas for the workbook layer -/

theorem depthCellE_ok (pageviews visits : Nat) :
    depthCellE pageviews visits =
      .ok (if 0 < visits then (pageviews : ℚ) / (visits : ℚ) else 0) := by
  unfold depthCellE pyDivNat
  by_cases h : 0 < visits
  · rw [if_pos h, if_neg (by omega), if_pos h]
  · rw [if_neg h, if_neg h]

theorem foldE_ok_forall (f : σ → α → Except PyErr σ)
    (hf : ∀ s a, a ∈ l → ∃ s', f s a = .ok s') :
    ∀ s, ∃ s', foldE f s l = .ok s' := by
  induction l with
  | nil => intro s; exact ⟨s, rfl⟩
  | cons x xs ih =>
    intro s
    obtain ⟨s₁, hs₁⟩ := hf s x (by simp)
    obtain ⟨s', hs'⟩ := ih (fun s a ha => hf s a (by simp [ha])) s₁
    exact ⟨s', by simp only [foldE, hs₁, hs']⟩

theorem mapE_ok_forall (f : α → Except PyErr β)
    (hf : ∀ x ∈ l, ∃ y, f x = .ok y) :
    ∃ ys, mapE f l = .ok ys := by
  induction l with
  | nil => exact ⟨[], rfl⟩
  | cons x xs ih =>
    obtain ⟨y, hy⟩ := hf x (by simp)
    obtain ⟨ys, hys⟩ := ih (fun x hx => hf x (by simp [hx]))
    exact ⟨y :: ys, by simp only [mapE, hy, hys]⟩

theorem mapE_error_of_mem (f : α → Except PyErr β) (e₀ : PyErr)
    (hval : ∀ y e, f y = .error e → e = e₀) :
    ∀ (l : List α) (x : α), x ∈ l → f x = .error e₀ → mapE f l = .error e₀ := by
  intro l
  induction l with
  | nil => intro x hx; exact absurd hx (by simp)
  | cons y ys ih =>
    intro x hx hxe
    simp only [List.mem_cons] at hx
    cases hy : f y with
    | error e' =>
      have := hval y e' hy
      subst this
      simp only [mapE, hy]
    | ok b =>
      rcases hx with rfl | hx
      · rw [hy] at hxe
        exact absurd hxe (by simp)
      · simp only [mapE, hy, ih x hx hxe]

/-! ### Unpacking location keys -/

theorem unpackRegionCity_ok_iff (key : String) :
    (∃ rc, unpackRegionCity key = .ok rc) ↔
      (splitSepDash key.toList).length = 2 := by
  unfold unpackRegionCity
  cases h : splitSepDash key.toList with
  | nil => simp [h]
  | cons a t =>
    cases t with
    | nil => simp
    | cons b t' =>
      cases t' with
      | nil => simp
      | cons c t'' => simp

theorem unpackRegionCity_err (key : String)
    (h : (splitSepDash key.toList).length ≠ 2) :
    unpackRegionCity key = .error .valueError := by
  unfold unpackRegionCity
  cases hs : splitSepDash key.toList with
  | nil => rfl
  | cons a t =>
    cases t with
    | nil => rfl
    | cons b t' =>
      cases t' with
      | nil => rw [hs] at h; simp at h
      | cons c t'' => rfl

theorem summaryDataRow_err_val (location : String) (recs : List ReportData)
    (e : PyErr) (h : summaryDataRow location recs = .error e) : e = .valueError := by
  unfold summaryDataRow at h
  cases hu : unpackRegionCity location with
  | error e' =>
    rw [hu] at h
    injection h with h'
    subst h'
    unfold unpackRegionCity at hu
    cases hs : splitSepDash location.toList <;> rw [hs] at hu
    · injection hu with h''
      exact h''.symm
    · rename_i a t
      cases t with
      | nil =>
        injection hu with h''
        exact h''.symm
      | cons b t' =>
        cases t' with
        | nil => exact absurd hu (by simp)
        | cons c t'' =>
          injection hu with h''
          exact h''.symm
  | ok rc =>
    obtain ⟨region, city⟩ := rc
    rw [hu] at h
    dsimp only at h
    rw [depthCellE_ok] at h
    exact absurd h (by simp)

theorem summaryDataRow_err_of_count (location : String) (recs : List ReportData)
    (h : countSepDash location.toList ≠ 1) :
    summaryDataRow location recs = .error .valueError := by
  have hlen : (splitSepDash location.toList).length ≠ 2 := by
    rw [splitSepDash_length]
    omega
  unfold summaryDataRow
  rw [unpackRegionCity_err location hlen]

/-! ## Claim C6 -/

/-- C6: the depth-of-view (`PagesPerVisit`) cell — on the summary sheet from
the per-location totals and on the per-city sheets from each record — is the
exact quotient `pageviews / visits` when `visits > 0` and exactly `0` when
`visits = 0`; the `ZeroDivisionError` branch of the division is never
reached. -/
theorem pages_per_visit_zero_guard (recs : List ReportData) (r : ReportData)
    (location : String) :
    (∃ q, depthCellE (calculate_totals recs).all.pageviews
        (calculate_totals recs).all.visits = .ok q)
    ∧ ((calculate_totals recs).all.visits = 0 →
        depthCellE (calculate_totals recs).all.pageviews
          (calculate_totals recs).all.visits = .ok 0)
    ∧ (0 < (calculate_totals recs).all.visits →
        depthCellE (calculate_totals recs).all.pageviews
            (calculate_totals recs).all.visits =
          .ok (((calculate_totals recs).all.pageviews : ℚ) /
               ((calculate_totals recs).all.visits : ℚ)))
    ∧ (∃ row, cityRecordRow r = .ok row ∧
        row.get? 4 = some (some (.n (if 0 < r.visits
          then (r.pageviews : ℚ) / (r.visits : ℚ) else 0))))
    ∧ (∀ rowOut, summaryDataRow location recs = .ok rowOut →
        rowOut.get? 5 = some (some (.n (if 0 < (calculate_totals recs).all.visits
          then ((calculate_totals recs).all.pageviews : ℚ) /
               ((calculate_totals recs).all.visits : ℚ)
          else 0)))) := by
  refine ⟨?_, ?_, ?_, ?_, ?_⟩
  · rw [depthCellE_ok]
    exact ⟨_, rfl⟩
  · intro h
    rw [depthCellE_ok, h]
    simp
  · intro h
    rw [depthCellE_ok, if_pos h]
  · refine ⟨[some (.s (dateToStr r.date)),
             some (.s (sourceDisplayName r.traffic_source)),
             some (.n (r.visits : ℚ)), some (.n (r.users : ℚ)),
             some (.n (if 0 < r.visits
               then (r.pageviews : ℚ) / (r.visits : ℚ) else 0))], ?_, rfl⟩
    unfold cityRecordRow
    rw [depthCellE_ok]
  · intro rowOut h
    unfold summaryDataRow at h
    cases hu : unpackRegionCity location with
    | error e => rw [hu] at h; exact absurd h (by simp)
    | ok rc =>
      obtain ⟨region, city⟩ := rc
      rw [hu] at h
      dsimp only at h
      rw [depthCellE_ok] at h
      injection h with h'
      rw [← h']
      rfl

/-- Witness for C6 at the empty record list (zero visits) and `recOrganic`. -/
theorem pages_per_visit_zero_guard_witness :
    ((calculate_totals ([] : List ReportData)).all.visits = 0 →
      depthCellE (calculate_totals ([] : List ReportData)).all.pageviews
        (calculate_totals ([] : List ReportData)).all.visits = .ok 0)
    ∧ (∃ row, cityRecordRow recOrganic = .ok row ∧
        row.get? 4 = some (some (.n (if 0 < recOrganic.visits
          then (recOrganic.pageviews : ℚ) / (recOrganic.visits : ℚ) else 0)))) := by
  have h := pages_per_visit_zero_guard [] recOrganic "Москва - Химки"
  exact ⟨h.2.1, h.2.2.2.1⟩

/-! ## Claim C7 -/

/-- C7 counterexample: the Traffic Patch Step fails on a workbook lacking the
summary sheet with the builtin `KeyError` — the very same error value any
Python mapping lookup produces on a missing key (second conjunct) — and not
with a dedicated `ReportStructureError`, which exists nowhere in
`src/core/exceptions.py` (see `PyErr`).  Through `export_report`'s catch-all
it would surface as the generic `ExcelExportError` shared by all export
failures. -/
theorem patch_step_missing_sheet_generic_error_cex :
    process [] [("Другое", [])] = .error .keyError
    ∧ pyGetItem ([] : List (String × Nat)) "organic" = .error .keyError := by
  constructor <;> rfl

/-- C7 (amended): the Patch Step fails exactly with the builtin `KeyError`
(no dedicated structure-error type) when the workbook lacks the expected
summary sheet name, and succeeds in locating the sheet — the whole patch then
runs to completion — when the sheet is present (for any traffic-data mapping
whose inner dictionaries carry the seven canonical categories, as
`load_traffic_data` always produces). -/
theorem patch_step_missing_sheet (wb : Workbook) (sheet_name : String)
    (td : List (String × List (String × Nat))) :
    (alookup sheet_name wb = none →
      update_excel wb sheet_name td = .error .keyError)
    ∧ ((∀ city inner, alookup city td = some inner →
          ∀ c ∈ SOURCE_KEYS, (alookup c inner).isSome) →
        ∀ sheet, alookup sheet_name wb = some sheet →
          ∃ wb', update_excel wb sheet_name td = .ok wb') := by
  constructor
  · intro h
    unfold update_excel pyGetItem
    rw [h]
  · intro hwf sheet h
    have hpatch : ∀ row, ∃ row', patchRow td row = .ok row' := by
      intro row
      unfold patchRow
      cases hc : cellVal row 1 with
      | none => exact ⟨row, rfl⟩
      | some cv =>
        cases cv with
        | n v => exact ⟨row, rfl⟩
        | s city =>
          dsimp only
          cases hin : alookup city td with
          | none => exact ⟨row, rfl⟩
          | some inner =>
            refine foldE_ok_forall _ ?_ row
            intro r kc hkc
            have hmem : kc.1 ∈ SOURCE_KEYS := by
              revert hkc
              unfold trafficColumns SOURCE_KEYS
              intro hkc
              simp only [List.mem_cons, List.not_mem_nil, or_false] at hkc ⊢
              rcases hkc with rfl | rfl | rfl | rfl | rfl | rfl | rfl <;> simp
            have := hwf city inner hin kc.1 hmem
            cases hv : alookup kc.1 inner with
            | none => rw [hv] at this; exact absurd this (by simp)
            | some v => exact ⟨_, rfl⟩
    obtain ⟨sheet', hsheet'⟩ := mapE_ok_forall (patchRow td) (fun row _ => hpatch row)
    refine ⟨dictSet wb sheet_name sheet', ?_⟩
    unfold update_excel pyGetItem
    rw [h]
    dsimp only
    rw [hsheet']

/-- Witness for the amended C7: a workbook without the summary sheet raises
`KeyError`; one with it is patched successfully. -/
theorem patch_step_missing_sheet_witness :
    update_excel [("Другое", [])] "Сводка" [] = .error .keyError
    ∧ ∃ wb', update_excel [("Сводка", [])] "Сводка" [] = .ok wb' :=
  ⟨(patch_step_missing_sheet [("Другое", [])] "Сводка" []).1 (by decide),
   (patch_step_missing_sheet [("Сводка", [])] "Сводка" []).2
     (by intro city inner h; exact absurd h (by simp [alookup]))
     [] (by decide)⟩

/-! ## Claim C10 -/

/-- C10: the Report Builder requires every location key to contain exactly one
`" - "` separator: the two-variable unpacking of `location.split(" - ")`
succeeds exactly when the key has one occurrence, and with zero or more than
one occurrence both the summary-sheet and the per-city-sheet construction
raise `ValueError`; the matrix builder's `extract_city_name`, in contrast,
accepts any key (falling back to the whole key when no separator occurs). -/
theorem location_key_exactly_one_separator (key : String)
    (data : List (String × List ReportData)) (recs : List ReportData)
    (date_from date_to filters : String) :
    ((∃ rc, unpackRegionCity key = .ok rc) ↔ countSepDash key.toList = 1)
    ∧ (countSepDash key.toList ≠ 1 → (key, recs) ∈ data →
        create_summary_sheet data date_from date_to filters = .error .valueError)
    ∧ (countSepDash key.toList ≠ 1 →
        create_city_sheet key recs date_from date_to filters = .error .valueError)
    ∧ (countSepDash key.toList = 0 → extract_city_name key = key) := by
  refine ⟨?_, ?_, ?_, ?_⟩
  · rw [unpackRegionCity_ok_iff, splitSepDash_length]
    omega
  · intro hcount hmem
    unfold create_summary_sheet
    rw [mapE_error_of_mem _ .valueError
      (fun kv e he => summaryDataRow_err_val kv.1 kv.2 e he)
      data (key, recs) hmem (summaryDataRow_err_of_count key recs hcount)]
  · intro hcount
    have hlen : (splitSepDash key.toList).length ≠ 2 := by
      rw [splitSepDash_length]
      omega
    unfold create_city_sheet
    rw [unpackRegionCity_err key hlen]
  · intro hcount
    unfold extract_city_name
    rw [if_neg]
    rw [splitSepDash_length]
    omega

/-- Witness for C10 at the separator-free key `"Химки"`. -/
theorem location_key_exactly_one_separator_witness :
    ((∃ rc, unpackRegionCity "Химки" = .ok rc) ↔ countSepDash "Химки".toList = 1)
    ∧ create_summary_sheet [("Химки", ([] : List ReportData))]
        "2024-01-01" "2024-01-31" "" = .error .valueError
    ∧ create_city_sheet "Химки" ([] : List ReportData)
        "2024-01-01" "2024-01-31" "" = .error .valueError
    ∧ extract_city_name "Химки" = "Химки" := by
  have h := location_key_exactly_one_separator "Химки" [("Химки", [])] []
    "2024-01-01" "2024-01-31" ""
  exact ⟨h.1, h.2.1 (by decide) (by decide), h.2.2.1 (by decide), h.2.2.2 (by decide)⟩

/-! ## Claim C8 -/

/-- C8 counterexample: with the records mapping, dates, filters and every
other explicit argument held fixed, two different contents of the persisted
raw-response snapshot produce different final workbooks — `export_report`
runs `ExcelTrafficProcessor`, whose `load_traffic_data` reads the snapshot
and whose `update_excel` writes its values into the summary sheet. -/
theorem snapshot_consumed_by_export_cex :
    export_report [("Москва - Химки", [])] [] "2024-01-01" "2024-01-31" "" ≠
      export_report [("Москва - Химки", [])] [("Москва - Химки", respW)]
        "2024-01-01" "2024-01-31" "" := by
  decide

/-- C8 (amended): the snapshot IS consumed by the export pipeline — the final
workbook can depend on its contents (see the counterexample); the dependence
is confined to `load_traffic_data`: holding all explicit arguments fixed, two
snapshot contents whose loaded traffic aggregations agree yield identical
final workbooks. -/
theorem export_depends_on_snapshot_via_load (data : List (String × List ReportData))
    (s₁ s₂ : List (String × RawResponse)) (date_from date_to filters : String)
    (h : load_traffic_data s₁ = load_traffic_data s₂) :
    export_report data s₁ date_from date_to filters =
      export_report data s₂ date_from date_to filters := by
  unfold export_report
  rw [h]

/-- Witness for the amended C8: two distinct snapshots with equal loaded
aggregations give identical exports. -/
theorem export_depends_on_snapshot_via_load_witness :
    export_report [("Москва - Химки", [])] [("x", ⟨[]⟩)]
        "2024-01-01" "2024-01-31" "" =
      export_report [("Москва - Химки", [])] [("x", ⟨[]⟩), ("x", ⟨[]⟩)]
        "2024-01-01" "2024-01-31" "" :=
  export_depends_on_snapshot_via_load [("Москва - Химки", [])]
    [("x", ⟨[]⟩)] [("x", ⟨[]⟩), ("x", ⟨[]⟩)]
    "2024-01-01" "2024-01-31" "" (by decide)

end Metrika
